import Mathlib

/-!
Verification of `check_recovCls.py` (FlaskUtils).

The script is plain Python over strings, association dictionaries built
from whitespace-delimited tables, and POSIX paths.  We shallowly embed it:

* Python `str` is modelled as `List Char`; `chars` injects Lean string
  literals.  Each Python string primitive used by the script
  (`rstrip`, `split(sep)`, `replace(pat, "")`, substring `in`,
  `list.remove`) is given an executable Lean counterpart below.
* File contents are passed in explicitly: a config file is its list of
  lines (without the trailing newline, which only `rstrip` would have
  eaten anyway), a numeric table loaded by `numpy.loadtxt` is its
  rectangular matrix of entries (entries are modelled as `Int`: the
  script never computes with the values in the properties treated here,
  only their arrangement and lengths matter).
* Python `dict` is an insertion-ordered association list with
  overwrite-on-reassignment semantics (`dictInsert`).
* Exceptions (`IndexError` on `s[0]`/`split(...)[1]`, `NameError` on an
  unassigned variable) are modelled with `Except`/`Option` results.
* The filesystem seen by `create_output_folder` is a set of existing
  directories plus a creation-permission predicate (`FS`); `os.mkdir`
  fails both on an existing directory and on a denied creation.
-/

/-- Convenience injection of a Lean string literal into the `List Char`
model of Python strings. -/
def chars (s : String) : List Char := s.data

/-- Python whitespace, as stripped by `str.rstrip()`. -/
def isPyWs (c : Char) : Bool :=
  c == ' ' || c == '\t' || c == '\n' || c == '\r' || c == '\x0b' || c == '\x0c'

/-- Python `s.rstrip()`: drop trailing whitespace. -/
def pyRstrip (cs : List Char) : List Char :=
  (cs.reverse.dropWhile isPyWs).reverse

/-- Python `s.split(sep)` for a one-character separator: keeps empty
fields, `"".split(sep) = [""]`. -/
def splitOnChar (sep : Char) : List Char → List (List Char)
  | [] => [[]]
  | c :: rest =>
    if c == sep then [] :: splitOnChar sep rest
    else
      match splitOnChar sep rest with
      | [] => [[c]]
      | h :: t => (c :: h) :: t

/-- `leadsWith pat cs` is true when `cs` starts with `pat`. -/
def leadsWith : List Char → List Char → Bool
  | [], _ => true
  | _ :: _, [] => false
  | a :: pat, b :: cs => a == b && leadsWith pat cs

/-- Python substring containment `needle in haystack`. -/
def hasSub (needle : List Char) : List Char → Bool
  | [] => needle == []
  | c :: rest => leadsWith needle (c :: rest) || hasSub needle rest

/-- Fueled worker for `pyReplaceDel`; one unit of fuel per character of
the scanned string, so `fuel = cs.length` always suffices. -/
def removeSubstrFuel (pat : List Char) : Nat → List Char → List Char
  | _, [] => []
  | 0, cs => cs
  | fuel + 1, c :: rest =>
    if !(pat == []) && leadsWith pat (c :: rest) then
      removeSubstrFuel pat fuel (rest.drop (pat.length - 1))
    else
      c :: removeSubstrFuel pat fuel rest

/-- Python `s.replace(pat, "")`: remove every (left-to-right,
non-overlapping) occurrence of `pat`. -/
def pyReplaceDel (cs pat : List Char) : List Char :=
  removeSubstrFuel pat cs.length cs

/-- Python `list.remove(x)`: drop the first occurrence of `x`;
`none` models the `ValueError` raised when `x` is absent. -/
def pyListRemove {α : Type} [DecidableEq α] (x : α) : List α → Option (List α)
  | [] => none
  | y :: ys => if y = x then some ys else (pyListRemove x ys).map (fun zs => y :: zs)

/-- The Python exceptions the embedded fragments can raise. -/
inductive PyErr where
  | indexError
  | nameError
deriving DecidableEq

instance {ε α : Type} [DecidableEq ε] [DecidableEq α] : DecidableEq (Except ε α)
  | Except.ok a, Except.ok b =>
    if h : a = b then isTrue (by rw [h]) else isFalse (by intro hh; injection hh; contradiction)
  | Except.ok _, Except.error _ => isFalse (by intro h; cases h)
  | Except.error _, Except.ok _ => isFalse (by intro h; cases h)
  | Except.error e, Except.error f =>
    if h : e = f then isTrue (by rw [h]) else isFalse (by intro hh; injection hh; contradiction)

/-- The value-extraction pipeline applied to a matching config line
(`check_recovCls.py` line 58):
`line.split(':')[1].rstrip().replace(" ", "").replace("\t", "").split('#')[0]`.
A line with no `':'` raises `IndexError` on the `[1]` subscript. -/
def extract_flask_value (line : List Char) : Except PyErr (List Char) :=
  match splitOnChar ':' line with
  | _ :: second :: _ =>
      Except.ok
        ((splitOnChar '#'
          (pyReplaceDel (pyReplaceDel (pyRstrip second) (chars " ")) (chars "\t"))).headD [])
  | _ => Except.error PyErr.indexError

/-- The scanning loop of `search_flask_args` (lines 54-59): the first
line containing `argName` as a substring is extracted and the loop
breaks; `none` means no line matched, so `args` was never assigned. -/
def search_loop (argName : List Char) : List (List Char) → Option (Except PyErr (List Char))
  | [] => none
  | line :: rest =>
    if hasSub argName line then some (extract_flask_value line)
    else search_loop argName rest

/-- `search_flask_args` (lines 50-65).  After the loop, `args[0]` raises
`NameError` when no line matched and `IndexError` when the extracted
value is empty; a value whose first character is `'0'` yields `None`. -/
def search_flask_args (fileLines : List (List Char)) (argName : List Char) :
    Except PyErr (Option (List Char)) :=
  match search_loop argName fileLines with
  | none => Except.error PyErr.nameError
  | some (Except.error e) => Except.error e
  | some (Except.ok args) =>
    match args.head? with
    | none => Except.error PyErr.indexError
    | some c => if c == '0' then Except.ok none else Except.ok (some args)

/-- Index of the last occurrence of `c`, Python `s.rfind(c)` (`none`
models the `-1` result for an absent character). -/
def lastIdxOf (c : Char) : List Char → Option Nat
  | [] => none
  | x :: rest =>
    match lastIdxOf c rest with
    | some i => some (i + 1)
    | none => if x == c then some 0 else none

/-- `os.path.dirname` (posixpath): the part before the last `'/'`, with
trailing slashes stripped unless the head is all slashes. -/
def dirname (p : List Char) : List Char :=
  match lastIdxOf '/' p with
  | none => []
  | some i =>
    let head := p.take (i + 1)
    if head.all (fun c => c == '/') then head
    else (head.reverse.dropWhile (fun c => c == '/')).reverse

/-- `os.path.basename` (posixpath): the part after the last `'/'`. -/
def basename (p : List Char) : List Char :=
  match lastIdxOf '/' p with
  | none => p
  | some i => p.drop (i + 1)

/-- Root part of `os.path.splitext` on a slash-free filename: cut at the
last `'.'` unless every preceding character is a `'.'`. -/
def splitextRoot (s : List Char) : List Char :=
  match lastIdxOf '.' s with
  | none => s
  | some i => if (s.take i).any (fun c => !(c == '.')) then s.take i else s

/-- `os.path.join` (posixpath) for two components: an absolute second
component discards the first. -/
def pjoin (a b : List Char) : List Char :=
  if b.head? = some '/' then b
  else if a = [] then b
  else if a.getLast? = some '/' then a ++ b
  else a ++ '/' :: b

/-- `get_config_path` (lines 67-72): the directory of the config file. -/
def get_config_path (config : List Char) : List Char := dirname config

/-- Resolution of the RecovCls path inside `get_recov_cls_dict`
(lines 87-91): keep an absolute configured value, otherwise join it with
the config file's directory. -/
def resolveRecovClsPath (config recovClsPathFromConfig : List Char) : List Char :=
  if recovClsPathFromConfig.head? = some '/' then recovClsPathFromConfig
  else pjoin (get_config_path config) recovClsPathFromConfig

/-- Resolution of the input-Cl prefix inside `get_input_cls_dict`
(lines 124-128), written separately in the source with the same rule. -/
def resolveInputClsPath (config ClsPath : List Char) : List Char :=
  if ClsPath.head? = some '/' then ClsPath
  else pjoin (get_config_path config) ClsPath

/-- The filesystem as `create_output_folder` can observe it: the set of
existing directories and, for `os.mkdir`, whether creating a given path
is permitted. -/
structure FS where
  dirs : List (List Char)
  canCreate : List Char → Bool

/-- `os.path.isdir`. -/
def isdir (fs : FS) (p : List Char) : Bool := decide (p ∈ fs.dirs)

/-- `os.mkdir`: fails (raises) when the directory already exists or when
creation at that path is not permitted. -/
def mkdir (fs : FS) (p : List Char) : Option FS :=
  if isdir fs p then none
  else if fs.canCreate p then some (FS.mk (p :: fs.dirs) fs.canCreate) else none

/-- `create_output_folder` (lines 19-47): note `newFolderName` begins
with `'/'`, so `os.path.join` discards `pathtoConfig`; the fallback
prefixes a literal `'.'`.  `none` models an uncaught exception from the
final unguarded `os.mkdir`. -/
def create_output_folder (fs : FS) (config : List Char) : Option (List Char × FS) :=
  let pathtoConfig := dirname config
  let rootName := splitextRoot (basename config)
  let newFolderName := chars "/check_RecovCls-" ++ rootName
  let newFolder := pjoin pathtoConfig newFolderName
  if isdir fs newFolder then some (newFolder, fs)
  else
    match mkdir fs newFolder with
    | some fs2 => some (newFolder, fs2)
    | none =>
      let newFolder2 := chars "." ++ newFolderName
      if isdir fs newFolder2 then some (newFolder2, fs)
      else (mkdir fs newFolder2).map (fun fs2 => (newFolder2, fs2))

/-- Python `dict` assignment on an insertion-ordered association list:
reassigning an existing key overwrites it in place, a new key is
appended. -/
def dictInsert {β : Type} (d : List (List Char × β)) (k : List Char) (v : β) :
    List (List Char × β) :=
  if d.any (fun p => decide (p.1 = k)) then
    d.map (fun p => if p.1 = k then (k, v) else p)
  else d ++ [(k, v)]

/-- Build a Python `dict` by successive assignments into an empty one. -/
def dictOfPairs {β : Type} (ps : List (List Char × β)) : List (List Char × β) :=
  ps.foldl (fun d p => dictInsert d p.1 p.2) []

/-- Python `k in d` / `d[k]` on the association-list dictionary. -/
def dictLookup {β : Type} (k : List Char) : List (List Char × β) → Option β
  | [] => none
  | p :: rest => if p.1 = k then some p.2 else dictLookup k rest

/-- Header parsing of `get_recov_cls_dict` (lines 98-102):
`line.replace("Cl-", "").rstrip().split(' ')` followed by
`names.remove('#')`; `none` models the `ValueError` raised when no bare
`#` token is present. -/
def recovHeaderNames (headerLine : List Char) : Option (List (List Char)) :=
  pyListRemove (chars "#")
    (splitOnChar ' ' (pyRstrip (pyReplaceDel headerLine (chars "Cl-"))))

/-- `numpy` transpose of a loaded rectangular matrix (`RecovCls.T`):
one output row per column index of the first input row. -/
def npT {α : Type} (m : List (List α)) : List (List α) :=
  match m with
  | [] => []
  | r :: _ => (List.range r.length).map (fun j => m.filterMap (fun row => row[j]?))

/-- `get_recov_cls_dict` (lines 95-109) after the RecovCls file has been
located and read: `headerLine` is its first line and `matrix` the
numeric table returned by `np.loadtxt` (entries modelled as integers —
only their arrangement matters here; the file needs at least two data
rows for `loadtxt` to produce a two-dimensional array).  The parsed
header names are zipped with the matrix columns into a dictionary. -/
def get_recov_cls_dict (headerLine : List Char) (matrix : List (List Int)) :
    Option (List (List Char × List Int)) :=
  match recovHeaderNames headerLine with
  | none => none
  | some names => some (dictOfPairs (names.zip (npT matrix)))

/-- `get_input_cls_dict` (lines 112-141) after path resolution:
`files k` abstracts `glob.glob(ClsPath + k + ".dat")` followed by
`np.loadtxt(FileCl[0], unpack=1)` — `none` when the glob matches
nothing, otherwise the `(ell, cls)` rows of the matched file.  For each
key of the RecovCls dictionary in order, a match stores the file's
first column under `'l'` (overwriting any previous one) and its second
column under the key; a miss is skipped silently. -/
def get_input_cls_dict (files : List Char → Option (List (Int × Int)))
    (RecovDict : List (List Char × List Int)) : List (List Char × List Int) :=
  (RecovDict.map Prod.fst).foldl
    (fun d k =>
      match files k with
      | none => d
      | some tbl =>
        dictInsert (dictInsert d (chars "l") (tbl.map Prod.fst)) k (tbl.map Prod.snd))
    []

/-- `numpy` `.min()` on a nonempty array (the `[]` case is arbitrary:
`numpy` raises there). -/
def npMin : List Int → Int
  | [] => 0
  | x :: xs => xs.foldl min x

/-- `numpy` `.max()` on a nonempty array. -/
def npMax : List Int → Int
  | [] => 0
  | x :: xs => xs.foldl max x

/-- `check_ell_range` (lines 143-156), taking the `'l'` arrays the
source reads out of the two dictionaries: exact equality of the two
minima and the two maxima. -/
def check_ell_range (recov_l input_l : List Int) : Bool :=
  decide (npMin recov_l = npMin input_l) && decide (npMax recov_l = npMax input_l)

/-- `np.arange(a, b)` on integer bounds. -/
def np_arange (a b : Int) : List Int :=
  (List.range (b - a).toNat).map (fun (i : Nat) => a + (i : Int))

/-- The common ℓ-grid computation of `plot_recov_vs_input`
(lines 175-183): on mismatching ranges, `ell_max` is the smaller
maximum and `ell_min` the larger minimum, then
`ell_vec = np.arange(ell_min, ell_max + 1)`. -/
def plot_ell_vec (recov_l input_l : List Int) : List Int :=
  if check_ell_range recov_l input_l = false then
    let ellMax := min (npMax recov_l) (npMax input_l)
    let ellMin := max (npMin recov_l) (npMin input_l)
    np_arange ellMin (ellMax + 1)
  else
    np_arange (npMin recov_l) (npMax input_l + 1)

/-- The scanning loop is the extraction of the first line containing the
key as a substring. -/
theorem search_loop_eq_find (argName : List Char) (fileLines : List (List Char)) :
    search_loop argName fileLines =
      (fileLines.find? (fun l => hasSub argName l)).map extract_flask_value := by
  induction fileLines with
  | nil => rfl
  | cons line rest ih =>
    by_cases h : hasSub argName line = true
    · simp [search_loop, List.find?, h]
    · simp only [Bool.not_eq_true] at h
      simp [search_loop, List.find?, h, ih]

example : chars "ab" = ['a', 'b'] := by decide

example : extract_flask_value (chars "NSIDE: 0") = Except.ok (chars "0") := by decide

example : search_flask_args [chars "NSIDE: 0"] (chars "NSIDE") = Except.ok none := by decide

example :
    search_flask_args [chars "CL_PREFIX: some/dir/Cl- # input"] (chars "CL_PREFIX") =
      Except.ok (some (chars "some/dir/Cl-")) := by decide

/-- C3 (counterexample): the config file whose single line is `KEY:0123`
has a line containing the key `KEY`, and the value of that line is the
string `0123`; yet `search_flask_args` returns the null signal `None`
(the value begins with `'0'`), not the string `0123`. -/
theorem C3_counterexample_zero_prefixed_value :
    search_flask_args [chars "KEY:0123"] (chars "KEY") = Except.ok none ∧
      search_flask_args [chars "KEY:0123"] (chars "KEY") ≠
        Except.ok (some (chars "0123")) := by
  decide

/-- C3 (amended): for every config file with at least one line containing
the key substring, provided the first such line contains a `':'` and the
extracted value is nonempty and does not begin with `'0'`,
`search_flask_args` returns that value, computed as the text between the
first and second `':'`, with trailing whitespace stripped, every space
and tab removed (internal ones included, not only trailing), and any
`'#'`-comment removed; matching is by substring, not exact key. -/
theorem C3_search_flask_args_first_match (fileLines : List (List Char))
    (argName line v : List Char)
    (hfind : fileLines.find? (fun l => hasSub argName l) = some line)
    (hex : extract_flask_value line = Except.ok v)
    (hne : v ≠ []) (h0 : v.head? ≠ some '0') :
    search_flask_args fileLines argName = Except.ok (some v) := by
  unfold search_flask_args
  rw [search_loop_eq_find, hfind]
  simp only [Option.map_some', hex]
  cases v with
  | nil => exact absurd rfl hne
  | cons c cs =>
    simp only [List.head?] at h0 ⊢
    have hc : (c == '0') = false := by
      cases hcc : c == '0'
      · rfl
      · exact absurd (by rw [eq_of_beq hcc]) h0
    simp [hc]

/-- C3 (witness): the amended claim on a concrete two-line file; the key
`KEY` matches the line keyed `XKEYX` by substring, and the internal
space of `a bc` is removed from the returned value. -/
theorem C3_search_flask_args_first_match_witness :
    search_flask_args [chars "AAA 1", chars "XKEYX: a bc # note"] (chars "KEY") =
      Except.ok (some (chars "abc")) :=
  C3_search_flask_args_first_match _ _ (chars "XKEYX: a bc # note") _
    (by decide) (by decide) (by decide) (by decide)

/-- C5: whenever the scanning loop finds a matching line whose extracted
value has `'0'` as its first character, `search_flask_args` returns the
null signal `None` rather than the extracted string. -/
theorem C5_zero_valued_arg_returns_none (fileLines : List (List Char))
    (argName v : List Char)
    (h : search_loop argName fileLines = some (Except.ok v))
    (h0 : v.head? = some '0') :
    search_flask_args fileLines argName = Except.ok none := by
  unfold search_flask_args
  rw [h]
  simp [h0]

/-- C5 (witness): a config line whose value is exactly `0` makes
`search_flask_args` report absence. -/
theorem C5_zero_valued_arg_returns_none_witness :
    search_flask_args [chars "APPLY_PIXWIN: 0"] (chars "APPLY_PIXWIN") = Except.ok none :=
  C5_zero_valued_arg_returns_none _ _ (chars "0") (by decide) (by decide)

/-- C6: a configured path value starting with `'/'` is returned
unchanged, any other value is joined with the directory containing the
configuration file, and the rule is the same function for the RecovCls
path and for the input-Cl prefix. -/
theorem C6_path_resolution (config v : List Char) :
    resolveRecovClsPath config v = resolveInputClsPath config v ∧
      (v.head? = some '/' → resolveRecovClsPath config v = v) ∧
      (v.head? ≠ some '/' → resolveRecovClsPath config v = pjoin (dirname config) v) := by
  refine ⟨rfl, fun h => ?_, fun h => ?_⟩
  · simp [resolveRecovClsPath, h]
  · simp [resolveRecovClsPath, get_config_path, h]

/-- C6 (witness): both branches of the resolution rule, and the
agreement of the two resolvers, at concrete paths. -/
theorem C6_path_resolution_witness :
    resolveRecovClsPath (chars "/home/u/flask.config") (chars "/data/recovCls.dat") =
        chars "/data/recovCls.dat" ∧
      resolveRecovClsPath (chars "/home/u/flask.config") (chars "out/recovCls.dat") =
        pjoin (dirname (chars "/home/u/flask.config")) (chars "out/recovCls.dat") ∧
      resolveRecovClsPath (chars "/home/u/flask.config") (chars "out/recovCls.dat") =
        resolveInputClsPath (chars "/home/u/flask.config") (chars "out/recovCls.dat") :=
  ⟨(C6_path_resolution (chars "/home/u/flask.config") (chars "/data/recovCls.dat")).2.1
      (by decide),
    (C6_path_resolution (chars "/home/u/flask.config") (chars "out/recovCls.dat")).2.2
      (by decide),
    (C6_path_resolution (chars "/home/u/flask.config") (chars "out/recovCls.dat")).1⟩

/-- Joining any directory with the absolute `newFolderName` returns
`newFolderName` itself. -/
theorem pjoin_check_folder (a r : List Char) :
    pjoin a (chars "/check_RecovCls-" ++ r) = chars "/check_RecovCls-" ++ r := by
  have h : (chars "/check_RecovCls-" ++ r).head? = some '/' := rfl
  simp [pjoin, h]

/-- The fallback folder name differs from the primary one (their first
characters are `'.'` and `'/'`). -/
theorem fallback_folder_ne (r : List Char) :
    chars "." ++ (chars "/check_RecovCls-" ++ r) ≠ chars "/check_RecovCls-" ++ r := by
  intro h
  have h1 : (chars "." ++ (chars "/check_RecovCls-" ++ r)).head? = some '.' := rfl
  have h2 : (chars "/check_RecovCls-" ++ r).head? = some '/' := rfl
  rw [h, h2] at h1
  simp at h1

/-- C2: at the config path `/home/user/sims/flask.config` the script
does not create its output folder next to the config file:
`os.path.join` discards the config directory because `newFolderName`
starts with `'/'`, so the attempted folder is `/check_RecovCls-flask`
at the filesystem root, not `/home/user/sims/check_RecovCls-flask`;
with creation at the root denied, the folder actually produced is
`./check_RecovCls-flask` in the current working directory. -/
theorem C2_output_folder_not_sibling :
    (create_output_folder (FS.mk [] (fun _ => true))
        (chars "/home/user/sims/flask.config")).map Prod.fst =
      some (chars "/check_RecovCls-flask") ∧
    (create_output_folder (FS.mk [] (fun p => !(p == chars "/check_RecovCls-flask")))
        (chars "/home/user/sims/flask.config")).map Prod.fst =
      some (chars "./check_RecovCls-flask") ∧
    chars "/check_RecovCls-flask" ≠ chars "/home/user/sims/check_RecovCls-flask" := by
  refine ⟨rfl, rfl, by decide⟩

/-- A successful `mkdir` records the new directory, and implies the
directory was absent and creation was permitted. -/
theorem mkdir_eq_some (fs : FS) (p : List Char) (fs2 : FS)
    (h : mkdir fs p = some fs2) :
    fs2 = FS.mk (p :: fs.dirs) fs.canCreate ∧ isdir fs p = false ∧
      fs.canCreate p = true := by
  unfold mkdir at h
  by_cases h1 : isdir fs p = true
  · simp [h1] at h
  · simp only [Bool.not_eq_true] at h1
    by_cases h2 : fs.canCreate p = true
    · simp [h1, h2] at h
      exact ⟨h.symm, h1, h2⟩
    · simp only [Bool.not_eq_true] at h2
      simp [h1, h2] at h

/-- A failed `mkdir` on an absent directory means creation was denied. -/
theorem mkdir_eq_none (fs : FS) (p : List Char)
    (h : mkdir fs p = none) (h1 : isdir fs p = false) :
    fs.canCreate p = false := by
  unfold mkdir at h
  by_cases h2 : fs.canCreate p = true
  · simp [h1, h2] at h
  · simpa using h2

/-- C10: `create_output_folder` is idempotent: after a successful call,
a second call on the resulting filesystem state raises nothing, changes
nothing, and returns the same folder name. -/
theorem C10_create_output_folder_idempotent (fs : FS) (config : List Char)
    (out : List Char × FS)
    (h : create_output_folder fs config = some out) :
    create_output_folder out.2 config = some out := by
  simp only [create_output_folder, pjoin_check_folder] at h ⊢
  set N := chars "/check_RecovCls-" ++ splitextRoot (basename config) with hN
  set N2 := chars "." ++ N with hN2
  by_cases h1 : isdir fs N = true
  · rw [if_pos h1] at h
    obtain rfl : out = (N, fs) := by injection h with h2; exact h2.symm
    rw [if_pos h1]
  · rw [if_neg h1] at h
    cases hm : mkdir fs N with
    | some fs2 =>
      rw [hm] at h
      obtain rfl : out = (N, fs2) := by injection h with h2; exact h2.symm
      obtain ⟨hfs2, _, _⟩ := mkdir_eq_some fs N fs2 hm
      have hin : isdir fs2 N = true := by
        rw [hfs2]; simp [isdir]
      rw [if_pos hin]
    | none =>
      rw [hm] at h
      by_cases h2 : isdir fs N2 = true
      · rw [if_pos h2] at h
        obtain rfl : out = (N2, fs) := by injection h with h3; exact h3.symm
        rw [if_neg h1, hm, if_pos h2]
      · rw [if_neg h2] at h
        cases hm2 : mkdir fs N2 with
        | none => rw [hm2] at h; simp at h
        | some fs2 =>
          rw [hm2] at h
          obtain rfl : out = (N2, fs2) := by
            simp only [Option.map_some'] at h
            injection h with h3; exact h3.symm
          obtain ⟨hfs2, _, _⟩ := mkdir_eq_some fs N2 fs2 hm2
          have hNmem : N ∉ fs.dirs := by
            simp only [Bool.not_eq_true, isdir, decide_eq_false_iff_not] at h1
            exact h1
          have hNne : N ≠ N2 := fun hh => fallback_folder_ne _ hh.symm
          have hin : isdir fs2 N = false := by
            rw [hfs2]
            simp only [isdir, decide_eq_false_iff_not, List.mem_cons]
            rintro (hh | hh)
            · exact hNne hh
            · exact hNmem hh
          have hcc : fs2.canCreate N = false := by
            rw [hfs2]
            exact mkdir_eq_none fs N hm (by simpa [isdir] using hNmem)
          have hmk : mkdir fs2 N = none := by
            unfold mkdir
            rw [hin, hcc]
            simp
          have hin2 : isdir fs2 N2 = true := by
            rw [hfs2]; simp [isdir]
          rw [if_neg (by rw [hin]; exact Bool.false_ne_true), hmk, if_pos hin2]

/-- C10 (witness): a fresh permissive filesystem; the second call
returns the folder created by the first and leaves the state alone. -/
theorem C10_create_output_folder_idempotent_witness :
    create_output_folder (FS.mk [] (fun _ => true)) (chars "/a/flask.config") =
        some (chars "/check_RecovCls-flask",
          FS.mk [chars "/check_RecovCls-flask"] (fun _ => true)) ∧
      create_output_folder (FS.mk [chars "/check_RecovCls-flask"] (fun _ => true))
          (chars "/a/flask.config") =
        some (chars "/check_RecovCls-flask",
          FS.mk [chars "/check_RecovCls-flask"] (fun _ => true)) :=
  ⟨rfl,
    C10_create_output_folder_idempotent (FS.mk [] (fun _ => true))
      (chars "/a/flask.config")
      (chars "/check_RecovCls-flask",
        FS.mk [chars "/check_RecovCls-flask"] (fun _ => true)) rfl⟩

/-- The columns of a matrix of two-entry rows are the two projections. -/
theorem npT_pair_rows (rows : List (Int × Int)) (hrows : rows ≠ []) :
    npT (rows.map (fun p => [p.1, p.2])) =
      [rows.map Prod.fst, rows.map Prod.snd] := by
  have h0 : ∀ (l : List (Int × Int)),
      (l.map (fun q => [q.1, q.2])).filterMap (fun row => row[0]?) = l.map Prod.fst := by
    intro l
    induction l with
    | nil => rfl
    | cons q qs ih => simp [ih]
  have h1 : ∀ (l : List (Int × Int)),
      (l.map (fun q => [q.1, q.2])).filterMap (fun row => row[1]?) = l.map Prod.snd := by
    intro l
    induction l with
    | nil => rfl
    | cons q qs ih => simp [ih]
  cases rows with
  | nil => exact absurd rfl hrows
  | cons p rs =>
    have hrange : List.range 2 = [0, 1] := by decide
    simp only [List.map_cons, npT, List.length_cons, List.length_singleton,
      List.length_nil, hrange, List.map_cons, List.map_nil]
    rw [show ([p.1, p.2] :: List.map (fun q => [q.1, q.2]) rs)
        = List.map (fun q => [q.1, q.2]) (p :: rs) from rfl]
    rw [h0 (p :: rs), h1 (p :: rs)]
    simp

/-- Two distinct keys assigned into an empty dictionary sit in
assignment order. -/
theorem dictOfPairs_two {β : Type} (k1 k2 : List Char) (v1 v2 : β)
    (hne : k1 ≠ k2) :
    dictOfPairs [(k1, v1), (k2, v2)] = [(k1, v1), (k2, v2)] := by
  have h1 : dictInsert ([] : List (List Char × β)) k1 v1 = [(k1, v1)] := rfl
  have h2 : dictInsert [(k1, v1)] k2 v2 = [(k1, v1), (k2, v2)] := by
    have hc : ([(k1, v1)].any (fun p => decide (p.1 = k2))) = false := by
      simp [hne]
    unfold dictInsert
    rw [hc]
    simp
  show dictInsert (dictInsert ([] : List (List Char × β)) k1 v1) k2 v2 = _
  rw [h1, h2]

/-- C1 (counterexample): on a RecovCls file with header
`# Cl-f1f1 Cl-f1f2` and the two-column matrix `[[1,2],[3,4]]`, the
returned mapping has keys `f1f1` and `f1f2`; it has no key `f2f2`, so
the mapping `{f1f1: col1, f2f2: col2}` stated by the claim is not what
is returned. -/
theorem C1_counterexample_second_key_is_f1f2 :
    get_recov_cls_dict (chars "# Cl-f1f1 Cl-f1f2") [[1, 2], [3, 4]] =
        some [(chars "f1f1", [1, 3]), (chars "f1f2", [2, 4])] ∧
      dictLookup (chars "f2f2") [(chars "f1f1", [1, 3]), (chars "f1f2", [2, 4])] =
        none := by
  decide

/-- C1 (amended): for a RecovCls file whose first line is
`# Cl-f1f1 Cl-f1f2` followed by a numeric matrix with two data columns
(and at least two rows), `get_recov_cls_dict` returns the mapping
`{f1f1: col1, f1f2: col2}`, each mapped column's length equal to the
number of data rows. -/
theorem C1_recov_dict_of_two_column_file (rows : List (Int × Int))
    (h : 2 ≤ rows.length) :
    get_recov_cls_dict (chars "# Cl-f1f1 Cl-f1f2")
        (rows.map (fun p => [p.1, p.2])) =
      some [(chars "f1f1", rows.map Prod.fst), (chars "f1f2", rows.map Prod.snd)] ∧
    (rows.map Prod.fst).length = rows.length ∧
    (rows.map Prod.snd).length = rows.length := by
  have hnames : recovHeaderNames (chars "# Cl-f1f1 Cl-f1f2") =
      some [chars "f1f1", chars "f1f2"] := by decide
  have hrows : rows ≠ [] := by
    intro hh
    rw [hh] at h
    exact absurd h (by decide)
  refine ⟨?_, by simp, by simp⟩
  unfold get_recov_cls_dict
  rw [hnames, npT_pair_rows rows hrows]
  show some (dictOfPairs ([chars "f1f1", chars "f1f2"].zip
      [rows.map Prod.fst, rows.map Prod.snd])) = _
  rw [show [chars "f1f1", chars "f1f2"].zip [rows.map Prod.fst, rows.map Prod.snd]
      = [(chars "f1f1", rows.map Prod.fst), (chars "f1f2", rows.map Prod.snd)] from rfl]
  rw [dictOfPairs_two _ _ _ _ (by decide)]

/-- C1 (witness): the amended claim at the concrete two-row matrix
`[[1,2],[3,4]]`. -/
theorem C1_recov_dict_of_two_column_file_witness :
    get_recov_cls_dict (chars "# Cl-f1f1 Cl-f1f2") [[1, 2], [3, 4]] =
        some [(chars "f1f1", [1, 3]), (chars "f1f2", [2, 4])] ∧
      ([1, 3] : List Int).length = 2 ∧ ([2, 4] : List Int).length = 2 :=
  (C1_recov_dict_of_two_column_file [(1, 2), (3, 4)] (by decide) : _)

/-- `filterMap` with an everywhere-defined partial function keeps the
length. -/
theorem filterMap_length_of_isSome {α β : Type} (f : α → Option β) (l : List α)
    (h : ∀ x ∈ l, (f x).isSome = true) : (l.filterMap f).length = l.length := by
  induction l with
  | nil => rfl
  | cons x xs ih =>
    have hx := h x (by simp)
    cases hfx : f x with
    | none => rw [hfx] at hx; simp at hx
    | some b =>
      simp only [List.filterMap_cons, hfx, List.length_cons]
      rw [ih (fun y hy => h y (by simp [hy]))]

/-- Every column of the transpose of a rectangular matrix has one entry
per matrix row. -/
theorem npT_col_length {α : Type} (m : List (List α)) (w : Nat)
    (hrect : ∀ r ∈ m, r.length = w) :
    ∀ col ∈ npT m, col.length = m.length := by
  cases m with
  | nil => intro col hc; simp [npT] at hc
  | cons r rest =>
    intro col hc
    simp only [npT, List.mem_map, List.mem_range] at hc
    obtain ⟨j, hj, rfl⟩ := hc
    apply filterMap_length_of_isSome
    intro row hrow
    have hw : row.length = w := hrect row hrow
    have hrw : r.length = w := hrect r (by simp)
    have hjr : j < row.length := by omega
    rw [List.getElem?_eq_getElem hjr]
    rfl

/-- A dictionary assignment preserves any property shared by the stored
values and the newly assigned value. -/
theorem dictInsert_values {β : Type} (P : β → Prop) (d : List (List Char × β))
    (k : List Char) (v : β)
    (hd : ∀ p ∈ d, P p.2) (hv : P v) : ∀ p ∈ dictInsert d k v, P p.2 := by
  intro p hp
  unfold dictInsert at hp
  by_cases hc : (d.any (fun q => decide (q.1 = k))) = true
  · rw [if_pos hc] at hp
    simp only [List.mem_map] at hp
    obtain ⟨q, hq, rfl⟩ := hp
    by_cases hqk : q.1 = k
    · simp only [if_pos hqk]
      exact hv
    · simp only [if_neg hqk]
      exact hd q hq
  · rw [if_neg hc] at hp
    rcases List.mem_append.mp hp with hq | hq
    · exact hd p hq
    · simp only [List.mem_singleton] at hq
      rw [hq]
      exact hv

/-- `dictOfPairs` stores only values drawn from its input pairs. -/
theorem dictOfPairs_values {β : Type} (P : β → Prop) (ps : List (List Char × β))
    (hps : ∀ q ∈ ps, P q.2) : ∀ p ∈ dictOfPairs ps, P p.2 := by
  suffices h : ∀ (qs : List (List Char × β)) (d : List (List Char × β)),
      (∀ p ∈ d, P p.2) → (∀ q ∈ qs, P q.2) →
      ∀ p ∈ qs.foldl (fun d q => dictInsert d q.1 q.2) d, P p.2 by
    exact h ps [] (by simp) hps
  intro qs
  induction qs with
  | nil =>
    intro d hd _ p hp
    exact hd p hp
  | cons q rest ih =>
    intro d hd hqs p hp
    exact ih (dictInsert d q.1 q.2)
      (dictInsert_values P d q.1 q.2 hd (hqs q (by simp)))
      (fun x hx => hqs x (by simp [hx])) p hp

/-- The input-Cl fold stores only columns of files of the common row
count. -/
theorem input_fold_values (files : List Char → Option (List (Int × Int))) (n : Nat)
    (hf : ∀ k tbl, files k = some tbl → tbl.length = n) :
    ∀ (keys : List (List Char)) (d : List (List Char × List Int)),
      (∀ p ∈ d, p.2.length = n) →
      ∀ p ∈ keys.foldl
          (fun d k =>
            match files k with
            | none => d
            | some tbl =>
              dictInsert (dictInsert d (chars "l") (tbl.map Prod.fst)) k
                (tbl.map Prod.snd)) d,
        p.2.length = n := by
  intro keys
  induction keys with
  | nil =>
    intro d hd p hp
    exact hd p hp
  | cons k rest ih =>
    intro d hd p hp
    rw [List.foldl_cons] at hp
    cases hfk : files k with
    | none =>
      rw [hfk] at hp
      exact ih d hd p hp
    | some tbl =>
      rw [hfk] at hp
      have hn : tbl.length = n := hf k tbl hfk
      refine ih _ ?_ p hp
      exact dictInsert_values (fun v => v.length = n) _ k (tbl.map Prod.snd)
        (dictInsert_values (fun v => v.length = n) d (chars "l") (tbl.map Prod.fst)
          hd (by simp [hn]))
        (by simp [hn])

/-- C7 (counterexample): with the RecovCls header `# Cl-f1f1 Cl-f1f2`
the recovered dictionary has no key `l`, and an input dictionary built
when no input file matches is empty, so neither dictionary always
contains a key `l`. -/
theorem C7_counterexample_l_not_always_present :
    get_recov_cls_dict (chars "# Cl-f1f1 Cl-f1f2") [[1, 2], [3, 4]] =
        some [(chars "f1f1", [1, 3]), (chars "f1f2", [2, 4])] ∧
      dictLookup (chars "l") [(chars "f1f1", [1, 3]), (chars "f1f2", [2, 4])] = none ∧
      get_input_cls_dict (fun _ => none)
          [(chars "f1f1", [1, 3]), (chars "f1f2", [2, 4])] = [] := by
  decide

/-- C7 (amended): neither dictionary is guaranteed a key `l` (the
recovered one has it only when the header names include `l`, the input
one only when some field matched a file); the length invariant holds in
this form: in a recovered dictionary built from a rectangular matrix
every value sequence has length equal to the number of data rows, and
in an input dictionary built from files sharing one row count every
value sequence has that row count — hence in each dictionary every
value sequence has the same length as the `'l'` sequence whenever `'l'`
is present. -/
theorem C7_dict_length_invariant :
    (∀ (headerLine : List Char) (matrix : List (List Int)) (w : Nat)
        (d : List (List Char × List Int)),
      (∀ r ∈ matrix, r.length = w) →
      get_recov_cls_dict headerLine matrix = some d →
      ∀ p ∈ d, p.2.length = matrix.length) ∧
    (∀ (files : List Char → Option (List (Int × Int)))
        (RecovDict : List (List Char × List Int)) (n : Nat),
      (∀ k tbl, files k = some tbl → tbl.length = n) →
      ∀ p ∈ get_input_cls_dict files RecovDict, p.2.length = n) := by
  constructor
  · intro headerLine matrix w d hrect hd p hp
    unfold get_recov_cls_dict at hd
    cases hn : recovHeaderNames headerLine with
    | none => rw [hn] at hd; cases hd
    | some names =>
      rw [hn] at hd
      injection hd with hd
      rw [← hd] at hp
      refine dictOfPairs_values (fun v => v.length = matrix.length) _ ?_ p hp
      intro q hq
      rcases q with ⟨qk, qv⟩
      exact npT_col_length matrix w hrect qv (List.of_mem_zip hq).2
  · intro files RecovDict n hf p hp
    exact input_fold_values files n hf (RecovDict.map Prod.fst) [] (by simp) p hp

/-- C7 (witness): both parts of the amended invariant at a concrete
recovered dictionary (header `# l Cl-f1f1`, matrix `[[2,5],[3,6]]`) and
a concrete input dictionary. -/
theorem C7_dict_length_invariant_witness :
    get_recov_cls_dict (chars "# l Cl-f1f1") [[2, 5], [3, 6]] =
        some [(chars "l", [2, 3]), (chars "f1f1", [5, 6])] ∧
      ([5, 6] : List Int).length = ([[2, 5], [3, 6]] : List (List Int)).length ∧
      ([5, 6] : List Int).length = 2 :=
  ⟨by decide,
    C7_dict_length_invariant.1 (chars "# l Cl-f1f1") [[2, 5], [3, 6]] 2
      [(chars "l", [2, 3]), (chars "f1f1", [5, 6])] (by decide) (by decide)
      (chars "f1f1", [5, 6]) (by decide),
    C7_dict_length_invariant.2 (fun _ => some [(2, 5), (3, 6)])
      [(chars "l", [2, 3])] 2
      (fun _ tbl h => by injection h with h2; rw [← h2]; rfl)
      (chars "l", [5, 6]) (by decide)⟩

/-- Assigning under one key leaves lookups of any other key unchanged. -/
theorem dictLookup_dictInsert_ne {β : Type} (d : List (List Char × β))
    (k k2 : List Char) (v : β) (hne : k ≠ k2) :
    dictLookup k (dictInsert d k2 v) = dictLookup k d := by
  unfold dictInsert
  by_cases hc : (d.any (fun q => decide (q.1 = k2))) = true
  · rw [if_pos hc]
    clear hc
    induction d with
    | nil => rfl
    | cons p rest ih =>
      by_cases hp : p.1 = k2
      · have hk2 : ¬(k2 = k) := fun hh => hne hh.symm
        simp only [List.map_cons, if_pos hp, dictLookup, if_neg hk2]
        rw [← ih]
        have hpk : ¬(p.1 = k) := by rw [hp]; exact hk2
        simp [dictLookup, if_neg hpk]
      · simp only [List.map_cons, if_neg hp, dictLookup]
        by_cases hpk : p.1 = k
        · rw [if_pos hpk, if_pos hpk]
        · rw [if_neg hpk, if_neg hpk, ih]
  · rw [if_neg hc]
    clear hc
    induction d with
    | nil =>
      have hk2 : ¬(k2 = k) := fun hh => hne hh.symm
      simp [dictLookup, if_neg hk2]
    | cons p rest ih =>
      simp only [List.cons_append, dictLookup]
      by_cases hpk : p.1 = k
      · rw [if_pos hpk, if_pos hpk]
      · rw [if_neg hpk, if_neg hpk]
        exact ih

/-- C8 (counterexample): with recovered fields `l` and `f1f1` and an
input file present only for `f1f1`, the field `l` has no matching file
and yet is not omitted from the input dictionary — it receives the ℓ
column of the `f1f1` file. -/
theorem C8_counterexample_l_key_not_omitted :
    (fun k => if k = chars "f1f1" then some [(2, 5), (3, 6)] else none) (chars "l")
        = none ∧
      dictLookup (chars "l")
          (get_input_cls_dict
            (fun k => if k = chars "f1f1" then some [(2, 5), (3, 6)] else none)
            [(chars "l", [2, 3]), (chars "f1f1", [9, 9])]) = some [2, 3] := by
  decide

/-- C8 (amended): every field of the recovered dictionary other than
`'l'` for which no file matching the glob pattern exists is omitted
from the input dictionary, without any error being raised (the `'l'`
key itself can still appear, filled by whichever fields did match). -/
theorem C8_missing_file_field_omitted
    (files : List Char → Option (List (Int × Int)))
    (RecovDict : List (List Char × List Int)) (k : List Char)
    (hk : k ≠ chars "l") (hf : files k = none) :
    dictLookup k (get_input_cls_dict files RecovDict) = none := by
  unfold get_input_cls_dict
  suffices h : ∀ (keys : List (List Char)) (d : List (List Char × List Int)),
      dictLookup k d = none →
      dictLookup k (keys.foldl
        (fun d k2 =>
          match files k2 with
          | none => d
          | some tbl =>
            dictInsert (dictInsert d (chars "l") (tbl.map Prod.fst)) k2
              (tbl.map Prod.snd)) d) = none by
    exact h (RecovDict.map Prod.fst) [] rfl
  intro keys
  induction keys with
  | nil =>
    intro d hd
    exact hd
  | cons k2 rest ih =>
    intro d hd
    rw [List.foldl_cons]
    cases hfk : files k2 with
    | none =>
      refine ih _ ?_
      simp only [hfk]
      exact hd
    | some tbl =>
      have hkk2 : k ≠ k2 := by
        intro hh
        rw [← hh, hf] at hfk
        cases hfk
      refine ih _ ?_
      simp only [hfk]
      rw [dictLookup_dictInsert_ne _ k k2 _ hkk2,
        dictLookup_dictInsert_ne _ k (chars "l") _ hk]
      exact hd

/-- C8 (witness): the field `f2f2` has no matching input file and is
absent from the input dictionary, which therefore has fewer entries
than the recovered one. -/
theorem C8_missing_file_field_omitted_witness :
    dictLookup (chars "f2f2")
        (get_input_cls_dict
          (fun k => if k = chars "f1f1" then some [(2, 5), (3, 6)] else none)
          [(chars "l", [2, 3]), (chars "f1f1", [9, 9]), (chars "f2f2", [8, 8])])
        = none ∧
      (get_input_cls_dict
          (fun k => if k = chars "f1f1" then some [(2, 5), (3, 6)] else none)
          [(chars "l", [2, 3]), (chars "f1f1", [9, 9]), (chars "f2f2", [8, 8])]).length
        < ([(chars "l", [2, 3]), (chars "f1f1", [9, 9]),
            (chars "f2f2", [8, 8])] : List (List Char × List Int)).length :=
  ⟨C8_missing_file_field_omitted
      (fun k => if k = chars "f1f1" then some [(2, 5), (3, 6)] else none)
      [(chars "l", [2, 3]), (chars "f1f1", [9, 9]), (chars "f2f2", [8, 8])]
      (chars "f2f2") (by decide) (by decide),
    by decide⟩

/-- The members of `np.arange(a, b)` are exactly the integers of the
half-open interval. -/
theorem mem_np_arange (a b x : Int) : x ∈ np_arange a b ↔ a ≤ x ∧ x < b := by
  unfold np_arange
  constructor
  · intro hx
    obtain ⟨i, hi, rfl⟩ := List.mem_map.mp hx
    rw [List.mem_range] at hi
    omega
  · intro h
    refine List.mem_map.mpr ⟨(x - a).toNat, ?_, ?_⟩
    · rw [List.mem_range]
      omega
    · omega

/-- C9: `check_ell_range` returns true exactly when the minima of the
two (nonempty) `'l'` arrays agree and their maxima agree; any mismatch
gives false. -/
theorem C9_check_ell_range_iff (recov_l input_l : List Int)
    (h1 : recov_l ≠ []) (h2 : input_l ≠ []) :
    check_ell_range recov_l input_l = true ↔
      npMin recov_l = npMin input_l ∧ npMax recov_l = npMax input_l := by
  simp [check_ell_range]

/-- C9 (witness): two arrays sharing minimum 2 and maximum 4 compare as
equal-ranged; the instance is obtained through the equivalence. -/
theorem C9_check_ell_range_iff_witness :
    (([2, 3, 4] : List Int) ≠ []) ∧ (([4, 2, 3] : List Int) ≠ []) ∧
      check_ell_range [2, 3, 4] [4, 2, 3] = true :=
  ⟨by decide, by decide,
    (C9_check_ell_range_iff [2, 3, 4] [4, 2, 3] (by decide) (by decide)).mpr
      (by decide)⟩

/-- C4: whenever the two `'l'` ranges differ, the comparison grid of
`plot_recov_vs_input` runs from the larger of the two minima to the
smaller of the two maxima, inclusively, in unit steps. -/
theorem C4_common_grid (recov_l input_l : List Int)
    (h1 : recov_l ≠ []) (h2 : input_l ≠ [])
    (h : check_ell_range recov_l input_l = false) :
    plot_ell_vec recov_l input_l =
        np_arange (max (npMin recov_l) (npMin input_l))
          (min (npMax recov_l) (npMax input_l) + 1) ∧
      ∀ x : Int, x ∈ plot_ell_vec recov_l input_l ↔
        (max (npMin recov_l) (npMin input_l) ≤ x ∧
          x ≤ min (npMax recov_l) (npMax input_l)) := by
  have he : plot_ell_vec recov_l input_l =
      np_arange (max (npMin recov_l) (npMin input_l))
        (min (npMax recov_l) (npMax input_l) + 1) := by
    simp [plot_ell_vec, h]
  refine ⟨he, fun x => ?_⟩
  rw [he, mem_np_arange]
  omega

set_option maxRecDepth 40000 in
/-- C4 (witness): for the recovered range `[2,100]` and the input range
`[1,150]` the reconciled grid is exactly `np.arange(2, 101)`, the
integers 2 through 100. -/
theorem C4_common_grid_witness :
    check_ell_range (np_arange 2 101) (np_arange 1 151) = false ∧
      plot_ell_vec (np_arange 2 101) (np_arange 1 151) = np_arange 2 101 := by
  have h : check_ell_range (np_arange 2 101) (np_arange 1 151) = false := by decide
  refine ⟨h, ?_⟩
  have h2 := (C4_common_grid (np_arange 2 101) (np_arange 1 151)
    (by decide) (by decide) h).1
  rw [h2]
  decide
